import Mathlib

/-!
Verification of the Poseidon browser-shell reconciliation core
(`src/main/main.ts`): tab registry, URL normalization, navigation
event handling, display-state merging, and the request interceptor.

Strings are modelled by Lean `String` (a wrapper around `List Char`);
all string operations used by the source (trim, startsWith, includes,
replace-first, `encodeURIComponent`, the regular expressions of
`normalizeUrl`) are embedded as explicit functions on `List Char`
mirroring their JavaScript semantics.

The organization store (`store.ts`), history store (`history.ts`) and
settings store (`settings.ts`) are imported by `main.ts` but their
source is not part of this development's input; the few operations of
theirs that `main.ts` calls are modelled from the specification and
marked as such in their doc comments.  The default-search-engine
setting is passed to `normalizeUrl` as an explicit parameter.
-/

namespace Poseidon

/-! ### Decimal digits, as produced by JavaScript number-to-string -/

/-- The decimal digit character for `n % 10`, as JS number printing uses. -/
def digitChar (n : Nat) : Char :=
  if n = 0 then '0' else if n = 1 then '1' else if n = 2 then '2'
  else if n = 3 then '3' else if n = 4 then '4' else if n = 5 then '5'
  else if n = 6 then '6' else if n = 7 then '7' else if n = 8 then '8'
  else '9'

/-- Fuel-indexed decimal printer (structural recursion so that concrete
instances reduce definitionally). -/
def natDigitsAux : Nat → Nat → List Char
  | 0, _ => []
  | fuel + 1, n =>
    if n < 10 then [digitChar n]
    else natDigitsAux fuel (n / 10) ++ [digitChar (n % 10)]

/-- Decimal representation of a natural number, digit characters only;
embeds JS template interpolation of a nonnegative integer. -/
def natDigits (n : Nat) : List Char := natDigitsAux (n + 1) n

/-- Parse a digit string back to a number (left fold, base 10). -/
def parseDigits (l : List Char) : Nat :=
  l.foldl (fun a c => a * 10 + (c.toNat - 48)) 0

/-! ### Tab identifiers

Source (`main.ts`):
```
function generateTabId(): string {
    return `tab-${++tabIdCounter}-${Date.now()}`
}
```
`mkTabId k t` is the id produced when the pre-increment counter reaches
`k` at timestamp `t`. -/

def mkTabId (k t : Nat) : String :=
  ⟨"tab-".data ++ natDigits k ++ '-' :: natDigits t⟩

/-- Extract the counter component of a tab id: drop `tab-`, read digits up
to the next dash. -/
def kOf (s : String) : Nat :=
  parseDigits ((s.data.drop 4).takeWhile (fun c => c != '-'))

/-! ### Character classes and JS string primitives -/

/-- JS `\d`. -/
def isDigitC (c : Char) : Bool := '0' ≤ c && c ≤ '9'

/-- JS `[a-zA-Z]`. -/
def isLetterC (c : Char) : Bool := ('a' ≤ c && c ≤ 'z') || ('A' ≤ c && c ≤ 'Z')

/-- JS `[a-zA-Z0-9-]`. -/
def isAlnumDash (c : Char) : Bool := isLetterC c || isDigitC c || c = '-'

/-- The line terminators that JS `.` (without the `s` flag) does not match. -/
def isLineTerm (c : Char) : Bool :=
  c = '\n' || c = '\r' || c = ' ' || c = ' '

/-- The character set removed by JS `String.prototype.trim`
(WhiteSpace plus LineTerminator). -/
def jsWs (c : Char) : Bool :=
  c = ' ' || c = '\t' || c = '\n' || c = '\r' ||
  c = '\x0b' || c = '\x0c' || c = ' ' || c = ' ' ||
  (' ' ≤ c && c ≤ ' ') ||
  c = ' ' || c = ' ' || c = ' ' || c = ' ' ||
  c = '　' || c = '﻿'

/-- Leading-whitespace removal. -/
def dropLeading (l : List Char) : List Char := l.dropWhile jsWs

/-- Trailing-whitespace removal. -/
def dropTrailing (l : List Char) : List Char :=
  (l.reverse.dropWhile jsWs).reverse

/-- JS `String.prototype.trim` on character lists. -/
def jsTrimL (l : List Char) : List Char := dropTrailing (dropLeading l)

/-- JS `String.prototype.trim`. -/
def jsTrim (s : String) : String := ⟨jsTrimL s.data⟩

/-- JS `String.prototype.startsWith`. -/
def jsStartsWith (s pat : String) : Bool := pat.data.isPrefixOf s.data

/-- JS `String.prototype.includes` on character lists. -/
def hasSub (pat : List Char) : List Char → Bool
  | [] => pat.isPrefixOf []
  | c :: t => pat.isPrefixOf (c :: t) || hasSub pat t

/-- JS `String.prototype.includes`. -/
def jsIncludes (s pat : String) : Bool := hasSub pat.data s.data

/-- JS `String.prototype.replace` with a plain-string pattern: replaces the
first occurrence only, returns the original string when no occurrence
exists. -/
def jsReplaceFirstL (pat repl : List Char) : List Char → List Char
  | [] => if pat.isPrefixOf ([] : List Char) then repl else []
  | c :: t =>
    if pat.isPrefixOf (c :: t) then repl ++ (c :: t).drop pat.length
    else c :: jsReplaceFirstL pat repl t

/-- JS `String.prototype.replace` (first occurrence, string pattern). -/
def jsReplaceFirst (pat repl s : String) : String :=
  ⟨jsReplaceFirstL pat.data repl.data s.data⟩

/-! ### The regular expressions of `normalizeUrl`

Source (`main.ts`):
```
const urlPattern = /^(https?:\/\/)?([a-zA-Z0-9-]+\.)+[a-zA-Z]{2,}(\/.*)?$/
const localhostPattern = /^(https?:\/\/)?(localhost|127\.0\.0\.1)(:\d+)?(\/.*)?$/
const internalPattern = /^poseidon:\/\//
const aboutPattern = /^about:/
```
Each anchored pattern is embedded as a total Boolean matcher.  The
optional scheme group can only ever consume a literal `http://` or
`https://` prefix (the label class contains no `:`), so it is embedded
by stripping such a prefix when present. -/

/-- Strip a leading `https://` or `http://`, the only strings the group
`(https?:\/\/)?` can consume. -/
def stripScheme (l : List Char) : List Char :=
  if "https://".data.isPrefixOf l then l.drop 8
  else if "http://".data.isPrefixOf l then l.drop 7
  else l

/-- Split on `'.'` (every part is dot-free; `n` dots yield `n+1` parts). -/
def splitDot : List Char → List (List Char)
  | [] => [[]]
  | c :: t =>
    if c = '.' then [] :: splitDot t
    else match splitDot t with
      | [] => [[c]]
      | p :: ps => (c :: p) :: ps

/-- `([a-zA-Z0-9-]+\.)+[a-zA-Z]{2,}`: at least two dot-separated parts,
all but the last nonempty over `[a-zA-Z0-9-]`, the last 2+ letters. -/
def hostOk (host : List Char) : Bool :=
  let parts := splitDot host
  decide (2 ≤ parts.length) &&
  (parts.dropLast.all fun p => !p.isEmpty && p.all isAlnumDash) &&
  (match parts.getLast? with
    | some tld => decide (2 ≤ tld.length) && tld.all isLetterC
    | none => false)

/-- `(\/.*)?$` (with `.` excluding line terminators). -/
def pathOk : List Char → Bool
  | [] => true
  | c :: t => c = '/' && t.all (fun x => !isLineTerm x)

/-- `(:\d+)?(\/.*)?$`. -/
def portPathOk : List Char → Bool
  | [] => true
  | ':' :: t =>
    let ds := t.takeWhile isDigitC
    !ds.isEmpty && pathOk (t.dropWhile isDigitC)
  | l => pathOk l

/-- `urlPattern.test`, after scheme stripping: host up to the first `/`
(the host classes contain no `/`), then the optional path. -/
def matchUrl (l : List Char) : Bool :=
  let m := stripScheme l
  hostOk (m.takeWhile (fun c => c != '/')) && pathOk (m.dropWhile (fun c => c != '/'))

/-- `localhostPattern.test`. -/
def matchLocal (l : List Char) : Bool :=
  let m := stripScheme l
  ("localhost".data.isPrefixOf m && portPathOk (m.drop 9)) ||
  ("127.0.0.1".data.isPrefixOf m && portPathOk (m.drop 9))

/-! ### `encodeURIComponent` -/

/-- Characters `encodeURIComponent` leaves unencoded. -/
def uriUnreserved (c : Char) : Bool :=
  isLetterC c || isDigitC c ||
  c = '-' || c = '_' || c = '.' || c = '!' || c = '~' || c = '*' ||
  c = '\'' || c = '(' || c = ')'

/-- Uppercase hexadecimal digit (only indices below 16 arise). -/
def hexDigit (n : Nat) : Char := "0123456789ABCDEF".data.getD n 'F'

/-- UTF-8 bytes of a character (scalar values, as JS produces for
well-formed strings). -/
def utf8Bytes (c : Char) : List Nat :=
  let n := c.toNat
  if n < 0x80 then [n]
  else if n < 0x800 then [0xc0 + n / 64, 0x80 + n % 64]
  else if n < 0x10000 then
    [0xe0 + n / 4096, 0x80 + (n / 64) % 64, 0x80 + n % 64]
  else
    [0xf0 + n / 262144, 0x80 + (n / 4096) % 64, 0x80 + (n / 64) % 64,
      0x80 + n % 64]

/-- Percent-encoding of one character. -/
def encodeChar (c : Char) : List Char :=
  if uriUnreserved c then [c]
  else (utf8Bytes c).flatMap fun b => ['%', hexDigit (b / 16), hexDigit (b % 16)]

/-- JS `encodeURIComponent` on character lists. -/
def encodeURIComponentL (l : List Char) : List Char := l.flatMap encodeChar

/-- JS `encodeURIComponent`. -/
def encodeURIComponent (s : String) : String := ⟨encodeURIComponentL s.data⟩

/-! ### `getSearchUrl` and `normalizeUrl`

Source (`main.ts`):
```
function getSearchUrl(query: string, engine: string): string {
    const encoded = encodeURIComponent(query)
    switch (engine) {
        case 'duckduckgo': return `https://duckduckgo.com/?q=${encoded}`
        case 'bing': return `https://www.bing.com/search?q=${encoded}`
        case 'brave': return `https://search.brave.com/search?q=${encoded}`
        case 'google': default: return `https://www.google.com/search?q=${encoded}`
    }
}
```
The `defaultSearchEngine` setting read by `normalizeUrl` is passed as
the explicit `engine` argument. -/

/-- The search-URL template for an engine, up to the query value. -/
def searchBase (engine : String) : List Char :=
  match engine with
  | "duckduckgo" => "https://duckduckgo.com/?q=".data
  | "bing" => "https://www.bing.com/search?q=".data
  | "brave" => "https://search.brave.com/search?q=".data
  | _ => "https://www.google.com/search?q=".data

def getSearchUrlL (query : List Char) (engine : String) : List Char :=
  searchBase engine ++ encodeURIComponentL query

def getSearchUrl (query engine : String) : String :=
  ⟨getSearchUrlL query.data engine⟩

/-- Does the (trimmed) input already carry one of the schemes that
suppress the `https://` prefix?  Source:
```
if (!url.startsWith('http://') && !url.startsWith('https://') &&
    !url.startsWith('poseidon://') && !url.startsWith('about:')) {
    url = 'https://' + url
}
``` -/
def hasKnownScheme (l : List Char) : Bool :=
  "http://".data.isPrefixOf l || "https://".data.isPrefixOf l ||
  "poseidon://".data.isPrefixOf l || "about:".data.isPrefixOf l

/-- Disjunction of the four pattern tests of `normalizeUrl`. -/
def matchAny (l : List Char) : Bool :=
  matchUrl l || matchLocal l ||
  "poseidon://".data.isPrefixOf l || "about:".data.isPrefixOf l

def normalizeUrlL (engine : String) (input : List Char) : List Char :=
  if matchAny (jsTrimL input) then
    (if hasKnownScheme (jsTrimL input) then jsTrimL input
     else "https://".data ++ jsTrimL input)
  else getSearchUrlL (jsTrimL input) engine

/-- `normalizeUrl` of `main.ts`, with the `defaultSearchEngine` setting
as explicit first argument. -/
def normalizeUrl (engine input : String) : String :=
  ⟨normalizeUrlL engine input.data⟩

/-- A character that is neither trimmable whitespace nor a line
terminator (every character `normalizeUrl` can emit into a search URL
is good in this sense). -/
def goodChar (c : Char) : Bool := !jsWs c && !isLineTerm c

/-! ### Organization store (spec-modelled)

`main.ts` imports these operations from `./store`, whose source is not
among the input files; they are modelled from the specification (§3
Tab-Placement, §4.2 Organization Store). -/

/-- A Tab-Placement record (spec §3). -/
structure Placement where
  realmId : String
  dockId : Option String
  order : Nat
  isPinned : Bool
deriving DecidableEq

/-- Modelled from the spec: the Organization Store state visible to the
operations `main.ts` uses — realm ids, docks with their owning realm,
Tab-Placements keyed by tab id, and the active-realm pointer
(`store.ts` is not among the input sources). -/
structure Store where
  realms : List String
  docks : List (String × String)
  placements : List (String × Placement)
  activeRealmId : String
deriving DecidableEq

/-- Modelled from the spec: `getTabOrganization` returns the
Tab-Placement of a tab, if organized (§4.2). -/
def getTabOrganization (s : Store) (tabId : String) : Option Placement :=
  (s.placements.find? (fun p => p.1 == tabId)).map (·.2)

/-- Modelled from the spec: a fresh `order` placing a tab at the end of
its container (§4.2, "assigns a fresh order placing the Tab at the end
of its new container"). -/
def nextOrder (s : Store) (realmId : String) (dockId : Option String) : Nat :=
  (s.placements.filter
      (fun p => p.2.realmId == realmId && p.2.dockId == dockId)).foldl
    (fun m p => max m (p.2.order + 1)) 0

/-- Modelled from the spec: upsert of a Tab-Placement record. -/
def setPlacement (s : Store) (tabId : String) (pl : Placement) : Store :=
  { s with placements :=
      if s.placements.any (fun p => p.1 == tabId) then
        s.placements.map (fun p => if p.1 == tabId then (tabId, pl) else p)
      else s.placements ++ [(tabId, pl)] }

/-- Modelled from the spec: `assignTabToActiveRealm` places a tab loose
under the currently-active realm, unpinned (§3, default placement). -/
def assignTabToActiveRealm (s : Store) (tabId : String) : Store :=
  setPlacement s tabId
    ⟨s.activeRealmId, none, nextOrder s s.activeRealmId none, false⟩

/-- Modelled from the spec: `moveTabToDock`; reports failure when the
dock is unknown (§4.2 failure policy), keeps pin state (§4.2). -/
def moveTabToDock (s : Store) (tabId dockId : String) : Store × Bool :=
  match s.docks.find? (fun d => d.1 == dockId) with
  | none => (s, false)
  | some d =>
    (setPlacement s tabId
      ⟨d.2, some dockId, nextOrder s d.2 (some dockId),
        ((getTabOrganization s tabId).map (·.isPinned)).getD false⟩, true)

/-- Modelled from the spec: `moveTabToRealm`; reports failure when the
realm is unknown, keeps pin state (§4.2). -/
def moveTabToRealm (s : Store) (tabId realmId : String) : Store × Bool :=
  if s.realms.contains realmId then
    (setPlacement s tabId
      ⟨realmId, none, nextOrder s realmId none,
        ((getTabOrganization s tabId).map (·.isPinned)).getD false⟩, true)
  else (s, false)

/-- Modelled from the spec: `removeTabOrganization` deletes the
Tab-Placement of a closed tab (§3, placement lifecycle). -/
def removeTabOrganization (s : Store) (tabId : String) : Store :=
  { s with placements := s.placements.filter (fun p => p.1 != tabId) }

/-- A visited-page record. -/
structure HistoryEntry where
  url : String
  title : String
  favicon : String
deriving DecidableEq

/-- Modelled from the spec: `addHistoryEntry` appends to the history
store (`history.ts` is not among the input sources; §1 treats history
as an append/search interface). -/
def addHistoryEntry (h : List HistoryEntry) (url title favicon : String) :
    List HistoryEntry :=
  h ++ [⟨url, title, favicon⟩]

/-- Modelled from the spec: `updateHistoryEntry` refreshes title/favicon
of the entries recorded for a url. -/
def updateHistoryEntry (h : List HistoryEntry) (url title favicon : String) :
    List HistoryEntry :=
  h.map fun e => if e.url = url then ⟨url, title, favicon⟩ else e

/-! ### Tab registry state (`main.ts`) -/

/-- A live tab: the `Tab` interface of `main.ts` (its `view` handle is
represented by the observable session state the code reads from it:
the `_isInternalPage` marker and the navigation capabilities). -/
structure TabM where
  id : String
  title : String
  url : String
  favicon : String
  isLoading : Bool
  isInternalPage : Bool
  canGoBack : Bool
  canGoForward : Bool
deriving DecidableEq

/-- Payload of a `tab-updated` notification (`sendTabUpdate`). -/
structure TabPayload where
  id : String
  title : String
  url : String
  favicon : String
  isLoading : Bool
  org : Option Placement
deriving DecidableEq

/-- Payload of an `active-tab-changed` notification
(`sendActiveTabUpdate`): full display state plus navigation
capability. -/
structure ActiveTabPayload where
  id : String
  title : String
  url : String
  favicon : String
  isLoading : Bool
  canGoBack : Bool
  canGoForward : Bool
deriving DecidableEq

/-- Outward notifications to the renderer. -/
inductive Notif where
  | tabUpdated (p : TabPayload)
  | tabsUpdated (ps : List TabPayload)
  | activeTabChanged (p : Option ActiveTabPayload)
  | tabOrganizationChanged (tabId : String) (pl : Placement)
deriving DecidableEq

/-- The mutable module-level state of `main.ts` that the tab operations
touch: the `tabs` map (as an insertion-ordered association list, like a
JS `Map`), `activeTabId`, `tabIdCounter`, the organization store, the
history store, the stream of emitted notifications, and the (ghost)
chronological list of every id `createTab` has returned. -/
structure AppState where
  tabs : List (String × TabM)
  activeTabId : Option String
  tabIdCounter : Nat
  store : Store
  history : List HistoryEntry
  outbox : List Notif
  issued : List String
deriving DecidableEq

/-- `tabs.get(tabId)`. -/
def lookupTab (st : AppState) (tabId : String) : Option TabM :=
  (st.tabs.find? (fun p => p.1 == tabId)).map (·.2)

/-- The registered tab ids, in insertion (= creation) order. -/
def tabKeys (st : AppState) : List String := st.tabs.map Prod.fst

/-- `tabs.set(tabId, tab)`: overwrite in place when the key exists,
append otherwise (JS `Map` semantics). -/
def setTab (tabs : List (String × TabM)) (tabId : String) (tab : TabM) :
    List (String × TabM) :=
  if tabs.any (fun p => p.1 == tabId) then
    tabs.map fun p => if p.1 == tabId then (tabId, tab) else p
  else tabs ++ [(tabId, tab)]

def tabPayload (s : Store) (tab : TabM) : TabPayload :=
  ⟨tab.id, tab.title, tab.url, tab.favicon, tab.isLoading,
    getTabOrganization s tab.id⟩

def activeTabPayload (tab : TabM) : ActiveTabPayload :=
  ⟨tab.id, tab.title, tab.url, tab.favicon, tab.isLoading, tab.canGoBack,
    tab.canGoForward⟩

/-- `sendTabUpdate(tab)`. -/
def sendTabUpdate (st : AppState) (tab : TabM) : AppState :=
  { st with outbox := st.outbox ++ [.tabUpdated (tabPayload st.store tab)] }

/-- `sendTabsUpdate()`. -/
def sendTabsUpdate (st : AppState) : AppState :=
  { st with outbox :=
      st.outbox ++ [.tabsUpdated (st.tabs.map fun p => tabPayload st.store p.2)] }

/-- `sendActiveTabUpdate()`. -/
def sendActiveTabUpdate (st : AppState) : AppState :=
  { st with outbox := st.outbox ++
      [.activeTabChanged
        ((st.activeTabId.bind fun a => lookupTab st a).map activeTabPayload)] }

/-- `switchToTab` of `main.ts`: silent no-op when the id is unknown;
otherwise update the active pointer, then `sendActiveTabUpdate` and
`sendTabUpdate`. -/
def switchToTab (st : AppState) (tabId : String) : AppState :=
  match lookupTab st tabId with
  | none => st
  | some tab => sendTabUpdate (sendActiveTabUpdate { st with activeTabId := some tabId }) tab

/-- `createTab` options (`{ realmId?, dockId? }`). -/
structure CreateTabOptions where
  realmId : Option String
  dockId : Option String
deriving DecidableEq

/-- `createTab` of `main.ts` (its default url is `poseidon://newtab`).
`now` is the `Date.now()` reading used by `generateTabId`.  The
view-level effects (zoom, off-screen attach, `loadURL`) concern only
the rendering session and are not part of the registry state. -/
def createTab (st : AppState) (url : String) (options : Option CreateTabOptions)
    (now : Nat) : TabM × AppState :=
  let counter := st.tabIdCounter + 1
  let id := mkTabId counter now
  let store1 :=
    match options with
    | some o =>
      match o.dockId with
      | some d => (moveTabToDock st.store id d).1
      | none =>
        match o.realmId with
        | some r => (moveTabToRealm st.store id r).1
        | none => assignTabToActiveRealm st.store id
    | none => assignTabToActiveRealm st.store id
  let outbox1 :=
    match getTabOrganization store1 id with
    | some org => st.outbox ++ [.tabOrganizationChanged id org]
    | none => st.outbox
  let tab : TabM :=
    { id := id, title := "New Tab", url := url, favicon := "",
      isLoading := false,
      isInternalPage := url = "poseidon://newtab" || url = "poseidon://settings",
      canGoBack := false, canGoForward := false }
  let st1 : AppState :=
    { st with
      tabIdCounter := counter
      store := store1
      outbox := outbox1
      tabs := setTab st.tabs id tab
      issued := st.issued ++ [id] }
  (tab, sendTabsUpdate st1)

/-- `closeTab` of `main.ts`: silent no-op for unknown ids; otherwise
remove the organization record, destroy and delete the tab, and if it
was active, activate the last remaining tab or create-and-activate a
fresh default tab; finally `sendTabsUpdate`. -/
def closeTab (st : AppState) (tabId : String) (now : Nat) : AppState :=
  match lookupTab st tabId with
  | none => st
  | some _ =>
    let st1 : AppState := { st with store := removeTabOrganization st.store tabId }
    let st2 : AppState := { st1 with tabs := st1.tabs.filter (fun p => p.1 != tabId) }
    let st3 :=
      if st2.activeTabId = some tabId then
        match st2.tabs.getLast? with
        | some p => switchToTab st2 p.1
        | none =>
          let st2a : AppState := { st2 with activeTabId := none }
          let r := createTab st2a "poseidon://newtab" none now
          switchToTab r.2 r.1.id
      else st2
    sendTabsUpdate st3

/-- The `'switch-tab'` IPC handler: `switchToTab(tabId)` then
`return { success: true }`. -/
def switchTabHandler (st : AppState) (tabId : String) : AppState × Bool :=
  (switchToTab st tabId, true)

/-- A partial display-state update (`Partial<Tab>` as used by the
`'update-tab-state'` handler). -/
structure TabPatch where
  url : Option String
  title : Option String
  favicon : Option String
  isLoading : Option Bool
deriving DecidableEq

/-- JS truthiness of an optional string field. -/
def isTruthy (o : Option String) : Bool :=
  match o with
  | some s => !(s == "")
  | none => false

/-- The `'update-tab-state'` IPC handler: merge the present fields,
record history for truthy url/title/favicon updates, notify, and
report success; `{ success: false }` without touching anything when
the tab is unknown. -/
def updateTabStateHandler (st : AppState) (tabId : String) (patch : TabPatch) :
    AppState × Bool :=
  match lookupTab st tabId with
  | none => (st, false)
  | some tab =>
    let tab1 := match patch.url with | some u => { tab with url := u } | none => tab
    let tab2 := match patch.title with | some t => { tab1 with title := t } | none => tab1
    let tab3 := match patch.favicon with | some f => { tab2 with favicon := f } | none => tab2
    let tab4 := match patch.isLoading with | some b => { tab3 with isLoading := b } | none => tab3
    let hist1 :=
      match patch.url with
      | some u =>
        if u = "" then st.history
        else addHistoryEntry st.history u tab4.title tab4.favicon
      | none => st.history
    let hist2 :=
      if isTruthy patch.title || isTruthy patch.favicon then
        updateHistoryEntry hist1 tab4.url tab4.title tab4.favicon
      else hist1
    let st1 : AppState := { st with tabs := setTab st.tabs tabId tab4 }
    let st2 : AppState := { st1 with history := hist2 }
    ({ st2 with outbox := st2.outbox ++ [.tabUpdated (tabPayload st.store tab4)] },
      true)

/-- The per-session `did-navigate` handler installed by `createTab`:
```
view.webContents.on('did-navigate', (_, url) => {
    if (!(tab as any)._isInternalPage || !url.startsWith('about:')) {
        tab.url = url
        sendTabUpdate(tab)
        addHistoryEntry(url, tab.title, tab.favicon)
    }
})
```
Returns the updated tab, the updated history log, and the emitted
notifications. -/
def didNavigate (store : Store) (tab : TabM) (hist : List HistoryEntry)
    (url : String) : TabM × List HistoryEntry × List Notif :=
  if !tab.isInternalPage || !(jsStartsWith url "about:") then
    let tab1 := { tab with url := url }
    (tab1, addHistoryEntry hist url tab1.title tab1.favicon,
      [.tabUpdated (tabPayload store tab1)])
  else (tab, hist, [])

/-! ### Request interceptor (`setupRequestInterceptor`) -/

/-- The response passed to the `onBeforeRequest` callback. -/
inductive NetResponse where
  | allow
  | cancel
  | redirectTo (url : String)
deriving DecidableEq

/-- `isLocal` of `main.ts`. -/
def isLocal (url : String) : Bool :=
  jsIncludes url "localhost" || jsIncludes url "127.0.0.1" ||
  jsStartsWith url "file:" || jsStartsWith url "poseidon:"

/-- The decision function of the single `onBeforeRequest` listener
installed by `setupRequestInterceptor`: (1) HTTPS upgrade, (2) ad
blocking via the external blocker when enabled and available, (3)
allow.  The blocker capability is the opaque `match` function of the
external filter. -/
def onBeforeRequest (httpsUpgradeOn adBlockOn : Bool)
    (blocker : Option (String → NetResponse)) (url : String) : NetResponse :=
  if httpsUpgradeOn && jsStartsWith url "http://" && !isLocal url then
    .redirectTo (jsReplaceFirst "http:" "https:" url)
  else
    match adBlockOn, blocker with
    | true, some f => f url
    | _, _ => .allow

/-! ### Reachable-state invariant and the event system -/

/-- Invariant of the running application: tab keys are in strictly
increasing creation order (the counter component of `generateTabId`),
bounded by the current counter, and a nonempty registry has a
registered active tab. -/
def Inv (st : AppState) : Prop :=
  List.Pairwise (fun p q => kOf p.1 < kOf q.1) st.tabs ∧
  (∀ p ∈ st.tabs, kOf p.1 ≤ st.tabIdCounter) ∧
  (st.tabs ≠ [] → ∃ a, st.activeTabId = some a ∧ a ∈ tabKeys st)

/-- User-level tab lifecycle events of a process run. -/
inductive TabEvent where
  | create (url : String) (now : Nat)
  | close (tabId : String) (now : Nat)
deriving DecidableEq

/-- The state at process start. -/
def initState : AppState :=
  { tabs := [], activeTabId := none, tabIdCounter := 0,
    store := ⟨["default"], [], [], "default"⟩, history := [], outbox := [],
    issued := [] }

def stepEvent (st : AppState) : TabEvent → AppState
  | .create url now => (createTab st url none now).2
  | .close tabId now => closeTab st tabId now

def runEvents (evs : List TabEvent) : AppState := evs.foldl stepEvent initState

/-- The intermediate state of `closeTab`: organization record removed,
tab deleted, active pointer not yet reassigned. -/
def eraseTabState (st : AppState) (tid : String) : AppState :=
  { st with
    store := removeTabOrganization st.store tid
    tabs := st.tabs.filter (fun p => p.1 != tid) }

/-! ### Issued-id uniqueness infrastructure (claim C9) -/

/-- Every id ever returned by `createTab` has its counter component
bounded by the current counter, and no id repeats. -/
def IssuedInv (st : AppState) : Prop :=
  (∀ id ∈ st.issued, kOf id ≤ st.tabIdCounter) ∧ st.issued.Nodup

/-! ### Concrete states for witnesses -/

def tabA : TabM :=
  { id := mkTabId 1 0, title := "New Tab", url := "poseidon://newtab",
    favicon := "", isLoading := false, isInternalPage := true,
    canGoBack := false, canGoForward := false }

def tabB : TabM :=
  { id := mkTabId 2 5, title := "Example", url := "https://example.com",
    favicon := "", isLoading := false, isInternalPage := false,
    canGoBack := true, canGoForward := false }

def demoStore : Store :=
  ⟨["default"], [],
    [(mkTabId 1 0, ⟨"default", none, 0, false⟩),
     (mkTabId 2 5, ⟨"default", none, 1, false⟩)], "default"⟩

def demoState : AppState :=
  { tabs := [(mkTabId 1 0, tabA), (mkTabId 2 5, tabB)],
    activeTabId := some (mkTabId 2 5), tabIdCounter := 2, store := demoStore,
    history := [], outbox := [], issued := [mkTabId 1 0, mkTabId 2 5] }

/-- A concrete filter capability for the witness. -/
def demoBlocker : String → NetResponse := fun _ => NetResponse.cancel

/-! ## Lemmas and theorems -/

theorem parseDigits_append (l₁ l₂ : List Char) :
    parseDigits (l₁ ++ l₂) =
      l₂.foldl (fun a c => a * 10 + (c.toNat - 48)) (parseDigits l₁) := by
  simp [parseDigits, List.foldl_append]

theorem digitChar_toNat (n : Nat) (h : n < 10) : (digitChar n).toNat - 48 = n := by
  interval_cases n <;> decide

theorem digitChar_ne_dash (n : Nat) : digitChar n ≠ '-' := by
  unfold digitChar
  split <;> try decide
  split <;> try decide
  split <;> try decide
  split <;> try decide
  split <;> try decide
  split <;> try decide
  split <;> try decide
  split <;> try decide
  split <;> decide

theorem parseDigits_natDigitsAux :
    ∀ fuel n, n < fuel → parseDigits (natDigitsAux fuel n) = n := by
  intro fuel
  induction fuel with
  | zero => intro n h; omega
  | succ fuel ih =>
    intro n h
    unfold natDigitsAux
    by_cases h10 : n < 10
    · simp [h10, parseDigits, digitChar_toNat n h10]
    · have hrec : n / 10 < fuel := by
        have : n / 10 < n := Nat.div_lt_self (by omega) (by omega)
        omega
      simp only [h10, if_false, parseDigits_append, ih _ hrec]
      simp [parseDigits, digitChar_toNat (n % 10) (Nat.mod_lt _ (by omega))]
      omega

theorem parseDigits_natDigits (n : Nat) : parseDigits (natDigits n) = n :=
  parseDigits_natDigitsAux (n + 1) n (Nat.lt_succ_self n)

theorem natDigitsAux_ne_dash :
    ∀ fuel n, ∀ c ∈ natDigitsAux fuel n, c ≠ '-' := by
  intro fuel
  induction fuel with
  | zero => intro n c hc; simp [natDigitsAux] at hc
  | succ fuel ih =>
    intro n c hc
    unfold natDigitsAux at hc
    by_cases h10 : n < 10
    · simp [h10] at hc
      subst hc; exact digitChar_ne_dash n
    · simp [h10] at hc
      rcases hc with hc | hc
      · exact ih _ c hc
      · subst hc; exact digitChar_ne_dash (n % 10)

theorem natDigits_ne_dash (n : Nat) : ∀ c ∈ natDigits n, c ≠ '-' :=
  natDigitsAux_ne_dash (n + 1) n

theorem takeWhile_ne_dash_append (xs ys : List Char)
    (h : ∀ c ∈ xs, c ≠ '-') :
    (xs ++ '-' :: ys).takeWhile (fun c => c != '-') = xs := by
  induction xs with
  | nil => simp [List.takeWhile]
  | cons a l ih =>
    have ha : a ≠ '-' := h a (by simp)
    simp only [List.cons_append, List.takeWhile]
    have : (a != '-') = true := by simpa using ha
    rw [this]
    simp only [cond_true, List.append_eq]
    rw [ih (fun c hc => h c (by simp [hc]))]

theorem kOf_mkTabId (k t : Nat) : kOf (mkTabId k t) = k := by
  unfold kOf mkTabId
  have hdrop :
      (("tab-".data ++ natDigits k ++ '-' :: natDigits t).drop 4) =
        natDigits k ++ '-' :: natDigits t := by
    show (['t', 'a', 'b', '-'] ++ (natDigits k ++ '-' :: natDigits t)).drop 4 =
      natDigits k ++ '-' :: natDigits t
    simp
  simp only [String.data]
  rw [List.append_assoc] at *
  rw [hdrop, takeWhile_ne_dash_append _ _ (natDigits_ne_dash k),
    parseDigits_natDigits]

theorem mkTabId_counter_inj {k₁ t₁ k₂ t₂ : Nat}
    (h : mkTabId k₁ t₁ = mkTabId k₂ t₂) : k₁ = k₂ := by
  have := congrArg kOf h
  rwa [kOf_mkTabId, kOf_mkTabId] at this

/-! ### Generic list lemmas -/

theorem head?_dropWhile (p : Char → Bool) :
    ∀ l : List Char, ∀ x, (l.dropWhile p).head? = some x → p x = false := by
  intro l
  induction l with
  | nil => intro x h; simp [List.dropWhile] at h
  | cons c t ih =>
    intro x h
    by_cases hc : p c
    · rw [List.dropWhile_cons_of_pos hc] at h; exact ih x h
    · rw [List.dropWhile_cons_of_neg hc] at h
      simp at h
      subst h
      simpa using hc

theorem getLast?_dropWhile (p : Char → Bool) :
    ∀ l : List Char, l.dropWhile p = [] ∨ (l.dropWhile p).getLast? = l.getLast? := by
  intro l
  induction l with
  | nil => left; simp
  | cons c t ih =>
    by_cases hc : p c
    · rw [List.dropWhile_cons_of_pos hc]
      rcases ih with h | h
      · left; exact h
      · by_cases hdw : t.dropWhile p = []
        · left; exact hdw
        · right
          rw [h]
          cases t with
          | nil => simp [List.dropWhile] at hdw
          | cons a t' => rw [List.getLast?_cons_cons]
    · rw [List.dropWhile_cons_of_neg hc]
      right; rfl

theorem dropWhile_eq_self_of_head (p : Char → Bool) (l : List Char)
    (h : ∀ x, l.head? = some x → p x = false) : l.dropWhile p = l := by
  cases l with
  | nil => simp
  | cons c t =>
    have := h c rfl
    rw [List.dropWhile_cons_of_neg (by simp [this])]

theorem takeWhile_break (p : Char → Bool) (c : Char) (hc : p c = false) :
    ∀ xs ys : List Char, (∀ x ∈ xs, p x = true) →
      (xs ++ c :: ys).takeWhile p = xs ∧ (xs ++ c :: ys).dropWhile p = c :: ys := by
  intro xs
  induction xs with
  | nil =>
    intro ys _
    constructor
    · simp [List.takeWhile, hc]
    · simp [List.dropWhile, hc]
  | cons a t ih =>
    intro ys hall
    have ha : p a = true := hall a (by simp)
    have iht := ih ys (fun x hx => hall x (by simp [hx]))
    constructor
    · simp only [List.cons_append, List.takeWhile_cons_of_pos ha]
      rw [iht.1]
    · simp only [List.cons_append, List.dropWhile_cons_of_pos ha]
      exact iht.2

theorem isPrefixOf_append_left (p l : List Char) : p.isPrefixOf (p ++ l) = true := by
  induction p with
  | nil => simp [List.isPrefixOf]
  | cons c t ih => simp [List.isPrefixOf, ih]

theorem isPrefixOf_exists {p l : List Char} (h : p.isPrefixOf l = true) :
    ∃ t, l = p ++ t := by
  induction p generalizing l with
  | nil => exact ⟨l, rfl⟩
  | cons c t ih =>
    cases l with
    | nil => simp [List.isPrefixOf] at h
    | cons a m =>
      simp only [List.isPrefixOf, Bool.and_eq_true, beq_iff_eq] at h
      obtain ⟨rfl, h2⟩ := h
      obtain ⟨r, rfl⟩ := ih h2
      exact ⟨r, rfl⟩

/-! ### Trim lemmas -/

theorem dropLeading_head (l : List Char) :
    ∀ x, (dropLeading l).head? = some x → jsWs x = false :=
  head?_dropWhile jsWs l

theorem dropTrailing_eq_self (l : List Char)
    (h : ∀ x, l.getLast? = some x → jsWs x = false) : dropTrailing l = l := by
  unfold dropTrailing
  rw [dropWhile_eq_self_of_head jsWs l.reverse
    (fun x hx => h x (by rwa [List.head?_reverse] at hx))]
  exact List.reverse_reverse l

theorem dropLeading_eq_self (l : List Char)
    (h : ∀ x, l.head? = some x → jsWs x = false) : dropLeading l = l :=
  dropWhile_eq_self_of_head jsWs l h

theorem jsTrimL_head (l : List Char) :
    ∀ x, (jsTrimL l).head? = some x → jsWs x = false := by
  intro x hx
  unfold jsTrimL dropTrailing at hx
  rw [List.head?_reverse] at hx
  rcases getLast?_dropWhile jsWs (dropLeading l).reverse with h | h
  · rw [h] at hx; simp at hx
  · rw [h, List.getLast?_reverse] at hx
    exact dropLeading_head l x hx

theorem jsTrimL_last (l : List Char) :
    ∀ x, (jsTrimL l).getLast? = some x → jsWs x = false := by
  intro x hx
  unfold jsTrimL dropTrailing at hx
  rw [List.getLast?_reverse] at hx
  exact head?_dropWhile jsWs (dropLeading l).reverse x hx

theorem jsTrimL_eq_self (l : List Char)
    (hh : ∀ x, l.head? = some x → jsWs x = false)
    (hl : ∀ x, l.getLast? = some x → jsWs x = false) : jsTrimL l = l := by
  unfold jsTrimL
  rw [dropLeading_eq_self l hh, dropTrailing_eq_self l hl]

theorem jsTrimL_idem (l : List Char) : jsTrimL (jsTrimL l) = jsTrimL l :=
  jsTrimL_eq_self (jsTrimL l) (jsTrimL_head l) (jsTrimL_last l)

theorem jsTrimL_eq_self_of_all (l : List Char)
    (h : ∀ x ∈ l, jsWs x = false) : jsTrimL l = l :=
  jsTrimL_eq_self l
    (fun x hx => h x (List.mem_of_mem_head? hx))
    (fun x hx => h x (List.mem_of_mem_getLast? hx))

/-! ### Character-class facts -/

theorem char_le_iff (a b : Char) : a ≤ b ↔ a.toNat ≤ b.toNat := by
  rw [Char.le_def]; exact UInt32.le_def

theorem char_eq_iff (a b : Char) : a = b ↔ a.toNat = b.toNat :=
  ⟨fun h => by rw [h], fun h => Char.ext (UInt32.ext h)⟩

theorem uriUnreserved_toNat {c : Char} (h : uriUnreserved c = true) :
    33 ≤ c.toNat ∧ c.toNat ≤ 126 := by
  unfold uriUnreserved isLetterC isDigitC at h
  simp only [Bool.or_eq_true, Bool.and_eq_true, decide_eq_true_eq, char_le_iff,
    char_eq_iff] at h
  have h97 : ('a').toNat = 97 := rfl
  have h122 : ('z').toNat = 122 := rfl
  have h65 : ('A').toNat = 65 := rfl
  have h90 : ('Z').toNat = 90 := rfl
  have h48 : ('0').toNat = 48 := rfl
  have h57 : ('9').toNat = 57 := rfl
  have hd : ('-').toNat = 45 := rfl
  have hu : ('_').toNat = 95 := rfl
  have hdot : ('.').toNat = 46 := rfl
  have hb : ('!').toNat = 33 := rfl
  have ht : ('~').toNat = 126 := rfl
  have hs : ('*').toNat = 42 := rfl
  have hq : ('\'').toNat = 39 := rfl
  have hlp : ('(').toNat = 40 := rfl
  have hrp : (')').toNat = 41 := rfl
  rw [h97, h122, h65, h90, h48, h57, hd, hu, hdot, hb, ht, hs, hq, hlp, hrp] at h
  omega

theorem jsWs_toNat {c : Char} (h : jsWs c = true) :
    c.toNat < 33 ∨ 127 ≤ c.toNat := by
  unfold jsWs at h
  simp only [Bool.or_eq_true, Bool.and_eq_true, decide_eq_true_eq, char_le_iff,
    char_eq_iff] at h
  have h32 : (' ').toNat = 32 := rfl
  have h9 : ('\t').toNat = 9 := rfl
  have h10 : ('\n').toNat = 10 := rfl
  have h13 : ('\r').toNat = 13 := rfl
  have h11 : ('\x0b').toNat = 11 := rfl
  have h12 : ('\x0c').toNat = 12 := rfl
  have ha0 : (' ').toNat = 160 := rfl
  have hog : (' ').toNat = 5760 := rfl
  have hq0 : (' ').toNat = 8192 := rfl
  have hqa : (' ').toNat = 8202 := rfl
  have hls : (' ').toNat = 8232 := rfl
  have hps : (' ').toNat = 8233 := rfl
  have hnn : (' ').toNat = 8239 := rfl
  have hmm : (' ').toNat = 8287 := rfl
  have hid : ('　').toNat = 12288 := rfl
  have hbom : ('﻿').toNat = 65279 := rfl
  rw [h32, h9, h10, h13, h11, h12, ha0, hog, hq0, hqa, hls, hps, hnn, hmm, hid,
    hbom] at h
  omega

theorem isLineTerm_toNat {c : Char} (h : isLineTerm c = true) :
    c.toNat = 10 ∨ c.toNat = 13 ∨ c.toNat = 8232 ∨ c.toNat = 8233 := by
  unfold isLineTerm at h
  simp only [Bool.or_eq_true, decide_eq_true_eq, char_eq_iff] at h
  have h10 : ('\n').toNat = 10 := rfl
  have h13 : ('\r').toNat = 13 := rfl
  have hls : (' ').toNat = 8232 := rfl
  have hps : (' ').toNat = 8233 := rfl
  rw [h10, h13, hls, hps] at h
  omega

theorem goodChar_of_uriUnreserved {c : Char} (h : uriUnreserved c = true) :
    goodChar c = true := by
  have hb := uriUnreserved_toNat h
  unfold goodChar
  cases hw : jsWs c
  · cases hl : isLineTerm c
    · rfl
    · rcases isLineTerm_toNat hl with h1 | h1 | h1 | h1 <;> omega
  · rcases jsWs_toNat hw with h1 | h1 <;> omega

theorem goodChar_hexDigit (n : Nat) : goodChar (hexDigit n) = true := by
  have hall : ∀ y ∈ "0123456789ABCDEF".data, goodChar y = true := by decide
  unfold hexDigit
  rw [List.getD_eq_getD_get?]
  cases h : "0123456789ABCDEF".data.get? n with
  | none => decide
  | some x => exact hall x (List.get?_mem h)

theorem goodChar_encodeChar {c x : Char} (h : x ∈ encodeChar c) :
    goodChar x = true := by
  unfold encodeChar at h
  by_cases hu : uriUnreserved c
  · rw [if_pos hu] at h
    simp at h
    subst h
    exact goodChar_of_uriUnreserved hu
  · rw [if_neg hu] at h
    simp only [List.mem_flatMap] at h
    obtain ⟨b, _, hx⟩ := h
    simp at hx
    rcases hx with rfl | rfl | rfl
    · decide
    · exact goodChar_hexDigit _
    · exact goodChar_hexDigit _

theorem goodChar_encode {l : List Char} :
    ∀ x ∈ encodeURIComponentL l, goodChar x = true := by
  intro x hx
  simp only [encodeURIComponentL, List.mem_flatMap] at hx
  obtain ⟨c, _, hc⟩ := hx
  exact goodChar_encodeChar hc

theorem jsWs_of_goodChar {c : Char} (h : goodChar c = true) : jsWs c = false := by
  unfold goodChar at h
  simp only [Bool.and_eq_true, Bool.not_eq_true'] at h
  exact h.1

theorem isLineTerm_of_goodChar {c : Char} (h : goodChar c = true) :
    isLineTerm c = false := by
  unfold goodChar at h
  simp only [Bool.and_eq_true, Bool.not_eq_true'] at h
  exact h.2

/-! ### `normalizeUrl` idempotence infrastructure -/

theorem normalizeUrlL_eq (e : String) (l : List Char) :
    normalizeUrlL e l =
      if matchAny (jsTrimL l) then
        (if hasKnownScheme (jsTrimL l) then jsTrimL l
         else "https://".data ++ jsTrimL l)
      else getSearchUrlL (jsTrimL l) e := rfl

theorem searchBase_shape (e : String) :
    ∃ host path, searchBase e = "https://".data ++ (host ++ '/' :: path) ∧
      hostOk host = true ∧ (∀ c ∈ host, (c != '/') = true) ∧
      (∀ c ∈ host ++ path, goodChar c = true) ∧
      (∀ c ∈ path, (!isLineTerm c) = true) := by
  unfold searchBase
  split
  · exact ⟨"duckduckgo.com".data, "?q=".data, by decide, by decide, by decide,
      by decide, by decide⟩
  · exact ⟨"www.bing.com".data, "search?q=".data, by decide, by decide, by decide,
      by decide, by decide⟩
  · exact ⟨"search.brave.com".data, "search?q=".data, by decide, by decide,
      by decide, by decide, by decide⟩
  · exact ⟨"www.google.com".data, "search?q=".data, by decide, by decide,
      by decide, by decide, by decide⟩

theorem stripScheme_https (u : List Char) :
    stripScheme ("https://".data ++ u) = u := by
  unfold stripScheme
  rw [if_pos (isPrefixOf_append_left _ _)]
  have h8 : ("https://".data).length = 8 := rfl
  rw [← h8, List.drop_left]

theorem stripScheme_eq_self {u : List Char}
    (h1 : "https://".data.isPrefixOf u = false)
    (h2 : "http://".data.isPrefixOf u = false) : stripScheme u = u := by
  unfold stripScheme
  rw [h1, h2]
  simp

/-- The output of `getSearchUrl` is returned unchanged by `normalizeUrl`:
it is already trimmed, matches the URL pattern, and carries a scheme. -/
theorem normalizeUrlL_search (q : List Char) (e e' : String) :
    normalizeUrlL e' (getSearchUrlL q e) = getSearchUrlL q e := by
  obtain ⟨host, path, hshape, hhost, hns, hgoodhp, hpl⟩ := searchBase_shape e
  have hr : getSearchUrlL q e =
      "https://".data ++ (host ++ '/' :: (path ++ encodeURIComponentL q)) := by
    unfold getSearchUrlL
    rw [hshape]
    simp [List.append_assoc]
  have hgood : ∀ x ∈ getSearchUrlL q e, goodChar x = true := by
    intro x hx
    rw [hr] at hx
    rcases List.mem_append.mp hx with hx1 | hx2
    · have hconc : ∀ c ∈ "https://".data, goodChar c = true := by decide
      exact hconc x hx1
    · rcases List.mem_append.mp hx2 with hx3 | hx4
      · exact hgoodhp x (List.mem_append_left path hx3)
      · rcases List.mem_cons.mp hx4 with rfl | hx5
        · decide
        · rcases List.mem_append.mp hx5 with hx6 | hx7
          · exact hgoodhp x (List.mem_append_right host hx6)
          · exact goodChar_encode x hx7
  have htrim : jsTrimL (getSearchUrlL q e) = getSearchUrlL q e :=
    jsTrimL_eq_self_of_all _ (fun x hx => jsWs_of_goodChar (hgood x hx))
  have hscheme : hasKnownScheme (getSearchUrlL q e) = true := by
    unfold hasKnownScheme
    rw [hr, isPrefixOf_append_left]
    simp
  have hstrip : stripScheme (getSearchUrlL q e) =
      host ++ '/' :: (path ++ encodeURIComponentL q) := by
    rw [hr, stripScheme_https]
  have hbreak := takeWhile_break (fun c => c != '/') '/' (by decide)
    host (path ++ encodeURIComponentL q) hns
  have hmatch : matchUrl (getSearchUrlL q e) = true := by
    simp only [matchUrl]
    rw [hstrip, hbreak.1, hbreak.2, hhost]
    simp only [Bool.true_and]
    show (decide ('/' = '/') &&
      (path ++ encodeURIComponentL q).all fun x => !isLineTerm x) = true
    rw [List.all_append]
    simp only [Bool.and_eq_true, List.all_eq_true]
    refine ⟨by decide, fun c hc => hpl c hc, fun c hc => ?_⟩
    simp [isLineTerm_of_goodChar (goodChar_encode c hc)]
  have hany : matchAny (getSearchUrlL q e) = true := by
    simp only [matchAny]
    rw [hmatch]
    simp
  rw [normalizeUrlL_eq, htrim, hany, hscheme]
  simp

theorem matchAny_nil : matchAny ([] : List Char) = false := by decide

theorem hasKnownScheme_parts {u : List Char} (h : hasKnownScheme u = false) :
    "http://".data.isPrefixOf u = false ∧ "https://".data.isPrefixOf u = false ∧
      "poseidon://".data.isPrefixOf u = false ∧
      "about:".data.isPrefixOf u = false := by
  unfold hasKnownScheme at h
  simp only [Bool.or_eq_false_iff] at h
  exact ⟨h.1.1.1, h.1.1.2, h.1.2, h.2⟩

/-- Case of the idempotence proof: `normalizeUrl` prefixed `https://` to a
trimmed input matching the URL or localhost pattern; the result re-matches
and is returned unchanged. -/
theorem normalizeUrlL_prefixed {u : List Char}
    (hm : matchAny u = true) (hp : hasKnownScheme u = false)
    (hlast : ∀ x, u.getLast? = some x → jsWs x = false) (e : String) :
    normalizeUrlL e ("https://".data ++ u) = "https://".data ++ u := by
  obtain ⟨hhttp, hhttps, hpos, habt⟩ := hasKnownScheme_parts hp
  have hu_ne : u ≠ [] := by
    intro h
    rw [h, matchAny_nil] at hm
    exact Bool.false_ne_true hm
  have htrim : jsTrimL ("https://".data ++ u) = "https://".data ++ u := by
    apply jsTrimL_eq_self
    · intro x hx
      have hh : ("https://".data ++ u).head? = some 'h' := rfl
      rw [hh] at hx
      cases hx
      decide
    · intro x hx
      rw [List.getLast?_append_of_ne_nil _ hu_ne] at hx
      exact hlast x hx
  have hstripu : stripScheme u = u := stripScheme_eq_self hhttps hhttp
  have hstrip : stripScheme ("https://".data ++ u) = u := stripScheme_https u
  have hmu : matchUrl ("https://".data ++ u) = matchUrl u := by
    simp only [matchUrl]
    rw [hstrip, hstripu]
  have hml : matchLocal ("https://".data ++ u) = matchLocal u := by
    simp only [matchLocal]
    rw [hstrip, hstripu]
  have hcore : (matchUrl u || matchLocal u) = true := by
    unfold matchAny at hm
    rw [hpos, habt] at hm
    simpa using hm
  have hmatch : matchAny ("https://".data ++ u) = true := by
    unfold matchAny
    rw [hmu, hml]
    simp only [Bool.or_eq_true] at hcore ⊢
    tauto
  have hscheme : hasKnownScheme ("https://".data ++ u) = true := by
    unfold hasKnownScheme
    rw [isPrefixOf_append_left]
    simp
  rw [normalizeUrlL_eq, htrim, hmatch, hscheme]
  simp

theorem normalizeUrlL_idem (e : String) (l : List Char) :
    normalizeUrlL e (normalizeUrlL e l) = normalizeUrlL e l := by
  cases hm : matchAny (jsTrimL l)
  · have h1 : normalizeUrlL e l = getSearchUrlL (jsTrimL l) e := by
      rw [normalizeUrlL_eq, hm]
      simp
    rw [h1, normalizeUrlL_search]
  · cases hp : hasKnownScheme (jsTrimL l)
    · have h1 : normalizeUrlL e l = "https://".data ++ jsTrimL l := by
        rw [normalizeUrlL_eq, hm, hp]
        simp
      rw [h1]
      exact normalizeUrlL_prefixed hm hp (jsTrimL_last l) e
    · have h1 : normalizeUrlL e l = jsTrimL l := by
        rw [normalizeUrlL_eq, hm, hp]
        simp
      rw [h1, normalizeUrlL_eq, jsTrimL_idem, hm, hp]
      simp

/-! ### Registry helper lemmas -/

theorem lookupTab_eq_none_iff (st : AppState) (tid : String) :
    lookupTab st tid = none ↔ tid ∉ tabKeys st := by
  unfold lookupTab tabKeys
  rw [Option.map_eq_none']
  rw [List.find?_eq_none]
  constructor
  · intro h hmem
    obtain ⟨p, hp, hfst⟩ := List.mem_map.mp hmem
    exact h p hp (by simp [hfst])
  · intro h p hp hbeq
    exact h (List.mem_map.mpr ⟨p, hp, by simpa using hbeq⟩)

theorem lookupTab_mem (st : AppState) (tid : String) (h : tid ∈ tabKeys st) :
    ∃ tab, lookupTab st tid = some tab := by
  cases hl : lookupTab st tid with
  | none => exact absurd h ((lookupTab_eq_none_iff st tid).mp hl)
  | some tab => exact ⟨tab, rfl⟩

theorem lookupTab_pair_mem {st : AppState} {tid : String} {tab : TabM}
    (h : lookupTab st tid = some tab) : (tid, tab) ∈ st.tabs := by
  unfold lookupTab at h
  rw [Option.map_eq_some'] at h
  obtain ⟨p, hp, hsnd⟩ := h
  have h1 := List.find?_some hp
  have h2 := List.mem_of_find?_eq_some hp
  have : p.1 = tid := by simpa using h1
  have hpeq : p = (tid, tab) := by
    cases p
    simp_all
  rwa [hpeq] at h2

theorem not_mem_keys_filter (l : List (String × TabM)) (tid : String) :
    tid ∉ (l.filter (fun p => p.1 != tid)).map Prod.fst := by
  intro h
  obtain ⟨p, hp, hfst⟩ := List.mem_map.mp h
  have := (List.mem_filter.mp hp).2
  rw [hfst] at this
  simp at this

theorem mem_filter_ne (l : List (String × TabM)) {tid a : String}
    (ha : a ≠ tid) {tab : TabM} (hmem : (a, tab) ∈ l) :
    (a, tab) ∈ l.filter (fun p => p.1 != tid) :=
  List.mem_filter.mpr ⟨hmem, by simpa using ha⟩

theorem pairwise_getLast_max {α : Type} (r : α → α → Prop) (l : List α) (x : α)
    (hp : List.Pairwise r l) (hx : l.getLast? = some x) :
    ∀ a ∈ l, a = x ∨ r a x := by
  induction l with
  | nil => simp at hx
  | cons b t ih =>
    cases t with
    | nil =>
      simp at hx
      subst hx
      intro a ha
      simp at ha
      subst ha
      left; rfl
    | cons c t' =>
      rw [List.getLast?_cons_cons] at hx
      intro a ha
      rcases List.mem_cons.mp ha with rfl | hat
      · right
        have hmem : x ∈ c :: t' := List.mem_of_mem_getLast? hx
        exact (List.pairwise_cons.mp hp).1 x hmem
      · exact ih (List.pairwise_cons.mp hp).2 hx a hat

theorem sendTabsUpdate_tabs (st : AppState) : (sendTabsUpdate st).tabs = st.tabs := rfl

theorem sendTabsUpdate_active (st : AppState) :
    (sendTabsUpdate st).activeTabId = st.activeTabId := rfl

theorem switchToTab_tabs (st : AppState) (tid : String) :
    (switchToTab st tid).tabs = st.tabs := by
  unfold switchToTab
  cases lookupTab st tid <;> rfl

theorem switchToTab_active_of_some {st : AppState} {tid : String} {tab : TabM}
    (h : lookupTab st tid = some tab) :
    (switchToTab st tid).activeTabId = some tid := by
  unfold switchToTab
  rw [h]
  rfl

theorem closeTab_eq {st : AppState} {tid : String} (now : Nat) {tab : TabM}
    (h : lookupTab st tid = some tab) :
    closeTab st tid now =
      (let st2 : AppState :=
        { st with
          store := removeTabOrganization st.store tid
          tabs := st.tabs.filter (fun p => p.1 != tid) }
       sendTabsUpdate (
        if st2.activeTabId = some tid then
          match st2.tabs.getLast? with
          | some p => switchToTab st2 p.1
          | none =>
            let r := createTab { st2 with activeTabId := none }
              "poseidon://newtab" none now
            switchToTab r.2 r.1.id
        else st2)) := by
  unfold closeTab
  rw [h]

theorem closeTab_of_unknown {st : AppState} {tid : String} (now : Nat)
    (h : tid ∉ tabKeys st) : closeTab st tid now = st := by
  unfold closeTab
  rw [(lookupTab_eq_none_iff st tid).mpr h]

theorem closeTab_eq2 {st : AppState} {tid : String} (now : Nat) {tab : TabM}
    (h : lookupTab st tid = some tab) :
    closeTab st tid now =
      sendTabsUpdate (
        if st.activeTabId = some tid then
          match (st.tabs.filter (fun p => p.1 != tid)).getLast? with
          | some p => switchToTab (eraseTabState st tid) p.1
          | none =>
            switchToTab
              (createTab { eraseTabState st tid with activeTabId := none }
                "poseidon://newtab" none now).2
              (mkTabId (st.tabIdCounter + 1) now)
        else eraseTabState st tid) := by
  unfold closeTab eraseTabState
  rw [h]
  exact rfl

theorem closeTab_master {st : AppState} {tid : String} (now : Nat) {tab : TabM}
    (hInv : Inv st) (hlk : lookupTab st tid = some tab) :
    tid ∉ tabKeys (closeTab st tid now) ∧
    (closeTab st tid now).tabs ≠ [] ∧
    (st.activeTabId = some tid →
      (∀ p, (st.tabs.filter (fun q => q.1 != tid)).getLast? = some p →
        (closeTab st tid now).activeTabId = some p.1 ∧
        ∀ q ∈ st.tabs.filter (fun q => q.1 != tid), kOf q.1 ≤ kOf p.1) ∧
      (st.tabs.filter (fun q => q.1 != tid) = [] →
        (closeTab st tid now).activeTabId = some (mkTabId (st.tabIdCounter + 1) now) ∧
        tabKeys (closeTab st tid now) = [mkTabId (st.tabIdCounter + 1) now])) := by
  obtain ⟨hpw, hbound, hactinv⟩ := hInv
  have hpair := lookupTab_pair_mem hlk
  have htid_bound : kOf tid ≤ st.tabIdCounter := hbound (tid, tab) hpair
  rw [closeTab_eq2 now hlk]
  by_cases hact : st.activeTabId = some tid
  · rw [if_pos hact]
    cases hlast : (st.tabs.filter (fun p => p.1 != tid)).getLast? with
    | some p =>
      simp only [hlast]
      have hpmem : p ∈ st.tabs.filter (fun p => p.1 != tid) :=
        List.mem_of_mem_getLast? hlast
      have hpkey : p.1 ∈ tabKeys (eraseTabState st tid) :=
        List.mem_map.mpr ⟨p, hpmem, rfl⟩
      obtain ⟨ptab, hplk⟩ := lookupTab_mem _ _ hpkey
      have htabs : (sendTabsUpdate (switchToTab (eraseTabState st tid) p.1)).tabs =
          st.tabs.filter (fun p => p.1 != tid) := by
        rw [sendTabsUpdate_tabs, switchToTab_tabs]
        rfl
      refine ⟨?_, ?_, ?_⟩
      · intro hmem
        rw [tabKeys, htabs] at hmem
        exact not_mem_keys_filter st.tabs tid hmem
      · rw [htabs]
        exact List.ne_nil_of_mem hpmem
      · intro _
        constructor
        · intro p' hp'
          injection hp' with hpp
          subst hpp
          constructor
          · rw [sendTabsUpdate_active, switchToTab_active_of_some hplk]
          · have hrempw : List.Pairwise (fun p q => kOf p.1 < kOf q.1)
                (st.tabs.filter (fun p => p.1 != tid)) :=
              hpw.sublist (List.filter_sublist st.tabs)
            intro q hq
            rcases pairwise_getLast_max _ _ p hrempw hlast q hq with rfl | hlt
            · exact le_refl _
            · exact le_of_lt hlt
        · intro hnil
          rw [hnil] at hlast
          simp at hlast
    | none =>
      simp only [hlast]
      have hfil : st.tabs.filter (fun p => p.1 != tid) = [] :=
        List.getLast?_eq_none_iff.mp hlast
      have hAtabs : ({ eraseTabState st tid with activeTabId := none } : AppState).tabs = [] := hfil
      have hAcounter : ({ eraseTabState st tid with activeTabId := none } : AppState).tabIdCounter = st.tabIdCounter := rfl
      have hCtabs :
          (createTab { eraseTabState st tid with activeTabId := none }
            "poseidon://newtab" none now).2.tabs =
          [(mkTabId (st.tabIdCounter + 1) now,
            (createTab { eraseTabState st tid with activeTabId := none }
              "poseidon://newtab" none now).1)] := by
        show setTab ({ eraseTabState st tid with activeTabId := none } : AppState).tabs
          (mkTabId (st.tabIdCounter + 1) now) _ = _
        rw [hAtabs]
        rfl
      have hlkC :
          lookupTab (createTab { eraseTabState st tid with activeTabId := none }
            "poseidon://newtab" none now).2 (mkTabId (st.tabIdCounter + 1) now) =
          some (createTab { eraseTabState st tid with activeTabId := none }
            "poseidon://newtab" none now).1 := by
        unfold lookupTab
        rw [hCtabs]
        simp [List.find?]
      have htid_ne : tid ≠ mkTabId (st.tabIdCounter + 1) now := by
        intro h
        have := congrArg kOf h
        rw [kOf_mkTabId] at this
        omega
      have htabs2 : (sendTabsUpdate (switchToTab
            (createTab { eraseTabState st tid with activeTabId := none }
              "poseidon://newtab" none now).2
            (mkTabId (st.tabIdCounter + 1) now))).tabs =
          [(mkTabId (st.tabIdCounter + 1) now,
            (createTab { eraseTabState st tid with activeTabId := none }
              "poseidon://newtab" none now).1)] := by
        rw [sendTabsUpdate_tabs, switchToTab_tabs, hCtabs]
      refine ⟨?_, ?_, ?_⟩
      · intro hmem
        rw [tabKeys, htabs2] at hmem
        simp at hmem
        exact htid_ne hmem
      · rw [htabs2]
        simp
      · intro _
        constructor
        · intro p' hp'
          exact Option.noConfusion hp'
        · intro _
          constructor
          · rw [sendTabsUpdate_active, switchToTab_active_of_some hlkC]
          · rw [tabKeys, htabs2]
            rfl
  · rw [if_neg hact]
    have htabs : (sendTabsUpdate (eraseTabState st tid)).tabs =
        st.tabs.filter (fun p => p.1 != tid) := rfl
    refine ⟨?_, ?_, ?_⟩
    · intro hmem
      rw [tabKeys, htabs] at hmem
      exact not_mem_keys_filter st.tabs tid hmem
    · have hne : st.tabs ≠ [] := List.ne_nil_of_mem hpair
      obtain ⟨a, haeq, hamem⟩ := hactinv hne
      have hane : a ≠ tid := by
        intro h
        rw [h] at haeq
        exact hact haeq
      obtain ⟨q, hq, hqfst⟩ := List.mem_map.mp hamem
      have hqfil : q ∈ st.tabs.filter (fun p => p.1 != tid) :=
        List.mem_filter.mpr ⟨hq, by simp [hqfst, hane]⟩
      rw [htabs]
      exact List.ne_nil_of_mem hqfil
    · intro habs
      exact absurd habs hact

theorem issuedInv_of_eq {st st' : AppState} (h : IssuedInv st)
    (hi : st'.issued = st.issued) (hc : st'.tabIdCounter = st.tabIdCounter) :
    IssuedInv st' := by
  unfold IssuedInv at *
  rw [hi, hc]
  exact h

theorem createTab_issued (st : AppState) (url : String)
    (opts : Option CreateTabOptions) (now : Nat) :
    (createTab st url opts now).2.issued =
      st.issued ++ [mkTabId (st.tabIdCounter + 1) now] := rfl

theorem createTab_counter (st : AppState) (url : String)
    (opts : Option CreateTabOptions) (now : Nat) :
    (createTab st url opts now).2.tabIdCounter = st.tabIdCounter + 1 := rfl

theorem switchToTab_issued (st : AppState) (tid : String) :
    (switchToTab st tid).issued = st.issued := by
  unfold switchToTab
  cases lookupTab st tid <;> rfl

theorem switchToTab_counter (st : AppState) (tid : String) :
    (switchToTab st tid).tabIdCounter = st.tabIdCounter := by
  unfold switchToTab
  cases lookupTab st tid <;> rfl

theorem issuedInv_createTab {st : AppState} (url : String)
    (opts : Option CreateTabOptions) (now : Nat) (h : IssuedInv st) :
    IssuedInv (createTab st url opts now).2 := by
  obtain ⟨hb, hn⟩ := h
  constructor
  · intro id hid
    rw [createTab_issued] at hid
    rw [createTab_counter]
    rcases List.mem_append.mp hid with hid | hid
    · exact le_trans (hb id hid) (Nat.le_succ _)
    · simp at hid
      subst hid
      rw [kOf_mkTabId]
  · rw [createTab_issued]
    refine List.Nodup.append hn (List.nodup_singleton _) ?_
    intro a ha hmem
    simp at hmem
    subst hmem
    have := hb _ ha
    rw [kOf_mkTabId] at this
    omega

theorem issuedInv_closeTab {st : AppState} (tid : String) (now : Nat)
    (h : IssuedInv st) : IssuedInv (closeTab st tid now) := by
  cases hlk : lookupTab st tid with
  | none =>
    rw [closeTab_of_unknown now ((lookupTab_eq_none_iff st tid).mp hlk)]
    exact h
  | some tab =>
    rw [closeTab_eq2 now hlk]
    by_cases hact : st.activeTabId = some tid
    · rw [if_pos hact]
      cases hlast : (st.tabs.filter (fun p => p.1 != tid)).getLast? with
      | some p =>
        refine issuedInv_of_eq h ?_ ?_
        · rw [show (sendTabsUpdate (switchToTab (eraseTabState st tid) p.1)).issued =
            (switchToTab (eraseTabState st tid) p.1).issued from rfl,
            switchToTab_issued]
          rfl
        · rw [show (sendTabsUpdate (switchToTab (eraseTabState st tid) p.1)).tabIdCounter =
            (switchToTab (eraseTabState st tid) p.1).tabIdCounter from rfl,
            switchToTab_counter]
          rfl
      | none =>
        have hA : IssuedInv
            ({ eraseTabState st tid with activeTabId := none } : AppState) := h
        have hC := issuedInv_createTab "poseidon://newtab" none now hA
        refine issuedInv_of_eq hC ?_ ?_
        · rw [show (sendTabsUpdate (switchToTab
              (createTab { eraseTabState st tid with activeTabId := none }
                "poseidon://newtab" none now).2
              (mkTabId (st.tabIdCounter + 1) now))).issued =
            (switchToTab
              (createTab { eraseTabState st tid with activeTabId := none }
                "poseidon://newtab" none now).2
              (mkTabId (st.tabIdCounter + 1) now)).issued from rfl,
            switchToTab_issued]
        · rw [show (sendTabsUpdate (switchToTab
              (createTab { eraseTabState st tid with activeTabId := none }
                "poseidon://newtab" none now).2
              (mkTabId (st.tabIdCounter + 1) now))).tabIdCounter =
            (switchToTab
              (createTab { eraseTabState st tid with activeTabId := none }
                "poseidon://newtab" none now).2
              (mkTabId (st.tabIdCounter + 1) now)).tabIdCounter from rfl,
            switchToTab_counter]
    · rw [if_neg hact]
      exact h

theorem issuedInv_foldl (evs : List TabEvent) :
    ∀ st : AppState, IssuedInv st → IssuedInv (evs.foldl stepEvent st) := by
  induction evs with
  | nil => intro st h; exact h
  | cons e t ih =>
    intro st h
    apply ih
    cases e with
    | create url now => exact issuedInv_createTab url none now h
    | close tid now => exact issuedInv_closeTab tid now h

theorem issuedInv_init : IssuedInv initState := by
  constructor
  · intro id hid
    simp [initState] at hid
  · simp [initState]

/-! ### `setTab` lookup lemmas (claim C8) -/

theorem setTab_of_mem (l : List (String × TabM)) (tid : String) (tab : TabM)
    (h : ∃ p ∈ l, p.1 = tid) :
    setTab l tid tab = l.map fun p => if p.1 == tid then (tid, tab) else p := by
  unfold setTab
  obtain ⟨p, hp, hfst⟩ := h
  rw [if_pos (List.any_eq_true.mpr ⟨p, hp, by simp [hfst]⟩)]

theorem find?_overwrite (l : List (String × TabM)) (tid : String) (tab : TabM)
    (h : ∃ p ∈ l, p.1 = tid) :
    (l.map fun p => if p.1 == tid then (tid, tab) else p).find?
        (fun p => p.1 == tid) = some (tid, tab) := by
  induction l with
  | nil =>
    obtain ⟨p, hp, _⟩ := h
    simp at hp
  | cons q t ih =>
    by_cases hq : q.1 = tid
    · have hbeq : ((q.1 == tid) = true) := by simp [hq]
      rw [List.map_cons, if_pos hbeq]
      exact List.find?_cons_of_pos _ (by simp)
    · have hbeq : ¬((q.1 == tid) = true) := by simp [hq]
      have hnext : ∃ p ∈ t, p.1 = tid := by
        obtain ⟨p, hp, hfst⟩ := h
        rcases List.mem_cons.mp hp with rfl | hp'
        · exact absurd hfst hq
        · exact ⟨p, hp', hfst⟩
      rw [List.map_cons, if_neg hbeq,
        List.find?_cons_of_neg _ (by simp [hq])]
      exact ih hnext

theorem find?_overwrite_other (l : List (String × TabM)) (tid tid' : String)
    (tab : TabM) (hne : tid' ≠ tid) :
    (l.map fun p => if p.1 == tid then (tid, tab) else p).find?
        (fun p => p.1 == tid') = l.find? (fun p => p.1 == tid') := by
  induction l with
  | nil => rfl
  | cons q t ih =>
    by_cases hq : q.1 = tid
    · have hbeq : ((q.1 == tid) = true) := by simp [hq]
      rw [List.map_cons, if_pos hbeq]
      have h1 : List.find? (fun p => p.1 == tid')
          ((tid, tab) :: (t.map fun p => if p.1 == tid then (tid, tab) else p)) =
          List.find? (fun p => p.1 == tid')
            (t.map fun p => if p.1 == tid then (tid, tab) else p) :=
        List.find?_cons_of_neg _ (by simp [Ne.symm hne])
      have h2 : List.find? (fun p => p.1 == tid') (q :: t) =
          List.find? (fun p => p.1 == tid') t :=
        List.find?_cons_of_neg _ (by simp [hq, Ne.symm hne])
      rw [h1, h2]
      exact ih
    · have hbeq : ¬((q.1 == tid) = true) := by simp [hq]
      rw [List.map_cons, if_neg hbeq]
      by_cases hq' : q.1 = tid'
      · have h1 : List.find? (fun p => p.1 == tid')
            (q :: (t.map fun p => if p.1 == tid then (tid, tab) else p)) = some q :=
          List.find?_cons_of_pos _ (by simp [hq'])
        have h2 : List.find? (fun p => p.1 == tid') (q :: t) = some q :=
          List.find?_cons_of_pos _ (by simp [hq'])
        rw [h1, h2]
      · have h1 : List.find? (fun p => p.1 == tid')
            (q :: (t.map fun p => if p.1 == tid then (tid, tab) else p)) =
            List.find? (fun p => p.1 == tid')
              (t.map fun p => if p.1 == tid then (tid, tab) else p) :=
          List.find?_cons_of_neg _ (by simp [hq'])
        have h2 : List.find? (fun p => p.1 == tid') (q :: t) =
            List.find? (fun p => p.1 == tid') t :=
          List.find?_cons_of_neg _ (by simp [hq'])
        rw [h1, h2]
        exact ih

/-! ### `switchToTab` outbox lemma (claim C3) -/

theorem switchToTab_of_unknown {st : AppState} {tid : String}
    (h : lookupTab st tid = none) : switchToTab st tid = st := by
  unfold switchToTab
  rw [h]

theorem switchToTab_outbox {st : AppState} {tid : String} {tab : TabM}
    (hlk : lookupTab st tid = some tab) :
    (switchToTab st tid).outbox = st.outbox ++
      [Notif.activeTabChanged (some (activeTabPayload tab)),
        Notif.tabUpdated (tabPayload st.store tab)] := by
  unfold switchToTab
  rw [hlk]
  have hlk1 : lookupTab { st with activeTabId := some tid } tid = some tab := hlk
  show ((st.outbox ++
      [Notif.activeTabChanged
        ((Option.bind (some tid)
          (lookupTab { st with activeTabId := some tid })).map activeTabPayload)]) ++
      [Notif.tabUpdated (tabPayload st.store tab)]) = _
  rw [Option.some_bind, hlk1]
  simp

theorem demoState_inv : Inv demoState := by
  refine ⟨by decide, by decide, fun _ => ⟨mkTabId 2 5, rfl, by decide⟩⟩

/-! ### Claim theorems -/

/-- Claim C1: for every registered tab id, `closeTab` removes the id from
the registry and never leaves the registry empty; if the closed tab was
active and tabs remain, the last remaining tab — the most-recently-created
one, having the maximal creation-counter component among the remaining
ids — becomes active; if no tab remains, a fresh default tab (with the
next counter value) is created and activated as the registry's only
tab. -/
theorem closeTab_correct (st : AppState) (tid : String) (now : Nat)
    (hInv : Inv st) (hreg : tid ∈ tabKeys st) :
    tid ∉ tabKeys (closeTab st tid now) ∧
    (closeTab st tid now).tabs ≠ [] ∧
    (st.activeTabId = some tid →
      (∀ p, (st.tabs.filter (fun q => q.1 != tid)).getLast? = some p →
        (closeTab st tid now).activeTabId = some p.1 ∧
        ∀ q ∈ st.tabs.filter (fun q => q.1 != tid), kOf q.1 ≤ kOf p.1) ∧
      (st.tabs.filter (fun q => q.1 != tid) = [] →
        (closeTab st tid now).activeTabId =
          some (mkTabId (st.tabIdCounter + 1) now) ∧
        tabKeys (closeTab st tid now) = [mkTabId (st.tabIdCounter + 1) now])) := by
  obtain ⟨tab, hlk⟩ := lookupTab_mem st tid hreg
  exact closeTab_master now hInv hlk

/-- Witness for C1 at a concrete two-tab state, closing the active tab. -/
theorem closeTab_correct_witness :
    (Inv demoState ∧ mkTabId 2 5 ∈ tabKeys demoState) ∧
    (mkTabId 2 5 ∉ tabKeys (closeTab demoState (mkTabId 2 5) 9) ∧
    (closeTab demoState (mkTabId 2 5) 9).tabs ≠ [] ∧
    (demoState.activeTabId = some (mkTabId 2 5) →
      (∀ p, (demoState.tabs.filter (fun q => q.1 != mkTabId 2 5)).getLast? = some p →
        (closeTab demoState (mkTabId 2 5) 9).activeTabId = some p.1 ∧
        ∀ q ∈ demoState.tabs.filter (fun q => q.1 != mkTabId 2 5),
          kOf q.1 ≤ kOf p.1) ∧
      (demoState.tabs.filter (fun q => q.1 != mkTabId 2 5) = [] →
        (closeTab demoState (mkTabId 2 5) 9).activeTabId =
          some (mkTabId (demoState.tabIdCounter + 1) 9) ∧
        tabKeys (closeTab demoState (mkTabId 2 5) 9) =
          [mkTabId (demoState.tabIdCounter + 1) 9]))) :=
  ⟨⟨demoState_inv, by decide⟩,
    closeTab_correct demoState (mkTabId 2 5) 9 demoState_inv (by decide)⟩

/-- Claim C2: closing the same id twice has the same effect as closing it
once — the second call finds the id unregistered and is a silent no-op;
more generally `closeTab` of an unregistered id changes nothing at all
(registry, active pointer, organization, notifications, history). -/
theorem closeTab_idempotent (st : AppState) (tid : String) (t1 t2 : Nat)
    (hInv : Inv st) :
    closeTab (closeTab st tid t1) tid t2 = closeTab st tid t1 ∧
    (tid ∉ tabKeys st → closeTab st tid t1 = st) := by
  constructor
  · by_cases hmem : tid ∈ tabKeys st
    · obtain ⟨tab, hlk⟩ := lookupTab_mem st tid hmem
      exact closeTab_of_unknown t2 (closeTab_master t1 hInv hlk).1
    · rw [closeTab_of_unknown t1 hmem, closeTab_of_unknown t2 hmem]
  · intro h
    exact closeTab_of_unknown t1 h

/-- Witness for C2 at a concrete two-tab state. -/
theorem closeTab_idempotent_witness :
    Inv demoState ∧
    (closeTab (closeTab demoState (mkTabId 2 5) 9) (mkTabId 2 5) 11 =
      closeTab demoState (mkTabId 2 5) 9 ∧
    (mkTabId 2 5 ∉ tabKeys demoState → closeTab demoState (mkTabId 2 5) 9 = demoState)) :=
  ⟨demoState_inv, closeTab_idempotent demoState (mkTabId 2 5) 9 11 demoState_inv⟩

/-- Counterexample to claim C3 as stated: switching to an id that is not
registered does not fail and does not report "unknown tab" — the
`'switch-tab'` IPC handler still answers `{ success: true }` and the
state (including the active pointer) is completely unchanged. -/
theorem switchTab_unknown_counterexample :
    (switchTabHandler demoState "tab-99-0").2 = true ∧
    (switchTabHandler demoState "tab-99-0").1 = demoState := by
  constructor
  · rfl
  · show switchToTab demoState "tab-99-0" = demoState
    exact switchToTab_of_unknown (by decide)

/-- Claim C3 (amended): `switchActive` on an unregistered id is a silent
no-op — the state is unchanged and the IPC result still reports success,
no "unknown tab" failure is surfaced; on a registered id it updates the
active pointer, leaves the registry unchanged, and emits the full state
notification (title/url/favicon/loading/navigation capability) for the
new active tab followed by its tab-update notification. -/
theorem switchTab_behavior (st : AppState) (tid : String) :
    (tid ∉ tabKeys st → switchTabHandler st tid = (st, true)) ∧
    (∀ tab, lookupTab st tid = some tab →
      (switchTabHandler st tid).2 = true ∧
      (switchTabHandler st tid).1.activeTabId = some tid ∧
      (switchTabHandler st tid).1.tabs = st.tabs ∧
      (switchTabHandler st tid).1.outbox = st.outbox ++
        [Notif.activeTabChanged (some (activeTabPayload tab)),
          Notif.tabUpdated (tabPayload st.store tab)]) := by
  constructor
  · intro h
    unfold switchTabHandler
    rw [switchToTab_of_unknown ((lookupTab_eq_none_iff st tid).mpr h)]
  · intro tab hlk
    exact ⟨rfl, switchToTab_active_of_some hlk, switchToTab_tabs st tid,
      switchToTab_outbox hlk⟩

/-- Witness for C3 (amended): an unknown id is a successful no-op, a
registered id activates and notifies. -/
theorem switchTab_behavior_witness :
    (switchTabHandler demoState "tab-99-0" = (demoState, true)) ∧
    ((switchTabHandler demoState (mkTabId 1 0)).2 = true ∧
      (switchTabHandler demoState (mkTabId 1 0)).1.activeTabId = some (mkTabId 1 0) ∧
      (switchTabHandler demoState (mkTabId 1 0)).1.tabs = demoState.tabs ∧
      (switchTabHandler demoState (mkTabId 1 0)).1.outbox = demoState.outbox ++
        [Notif.activeTabChanged (some (activeTabPayload tabA)),
          Notif.tabUpdated (tabPayload demoState.store tabA)]) :=
  ⟨(switchTab_behavior demoState "tab-99-0").1 (by decide),
    (switchTab_behavior demoState (mkTabId 1 0)).2 tabA (by decide)⟩

/-- Counterexample to claim C4 as stated: the reserved internal scheme of
this program is `poseidon://`, not `app://`; `"app://settings"` matches
none of the patterns of `normalizeUrl` and is therefore turned into a
search-engine query (shown for every engine branch), not passed through
unchanged. -/
theorem normalizeUrl_app_counterexample :
    normalizeUrl "google" "app://settings" =
      "https://www.google.com/search?q=app%3A%2F%2Fsettings" ∧
    normalizeUrl "google" "app://settings" ≠ "app://settings" ∧
    normalizeUrl "duckduckgo" "app://settings" ≠ "app://settings" ∧
    normalizeUrl "bing" "app://settings" ≠ "app://settings" ∧
    normalizeUrl "brave" "app://settings" ≠ "app://settings" ∧
    normalizeUrl "other" "app://settings" ≠ "app://settings" := by
  refine ⟨by decide, by decide, by decide, by decide, by decide, by decide⟩

/-- Claim C4 (amended): URL normalization passes internal-scheme URLs
through unchanged, where the internal scheme is `poseidon://`: every
(trimmed) input starting with `poseidon://` is returned as-is, for any
search-engine setting — in particular `"poseidon://settings"` is
unchanged.  (The spec's example literal `"app://settings"` is not of the
internal scheme and becomes a search query, see the counterexample.) -/
theorem normalizeUrl_internal_unchanged (engine s : String)
    (h : "poseidon://".data.isPrefixOf (jsTrimL s.data) = true) :
    normalizeUrl engine s = jsTrim s := by
  have hany : matchAny (jsTrimL s.data) = true := by
    unfold matchAny
    rw [h]
    simp
  have hsch : hasKnownScheme (jsTrimL s.data) = true := by
    unfold hasKnownScheme
    rw [h]
    simp
  unfold normalizeUrl jsTrim
  apply congrArg String.mk
  rw [normalizeUrlL_eq, hany, hsch]
  simp

/-- Witness for C4 (amended) at `"poseidon://settings"`. -/
theorem normalizeUrl_internal_unchanged_witness :
    "poseidon://".data.isPrefixOf (jsTrimL ("poseidon://settings" : String).data) = true ∧
    normalizeUrl "google" "poseidon://settings" = jsTrim "poseidon://settings" :=
  ⟨by decide, normalizeUrl_internal_unchanged "google" "poseidon://settings" (by decide)⟩

/-- Claim C5: the spec's normalization examples, for every search-engine
setting: `"example.com"` gains `https://`, `"http://example.com"` is
unchanged, `"localhost:3000"` gains `https://`, and `"hello world"`
becomes a search URL containing the percent-encoded `"hello%20world"`. -/
theorem normalizeUrl_examples (engine : String) :
    normalizeUrl engine "example.com" = "https://example.com" ∧
    normalizeUrl engine "http://example.com" = "http://example.com" ∧
    normalizeUrl engine "localhost:3000" = "https://localhost:3000" ∧
    ∃ a b, (normalizeUrl engine "hello world").data =
      a ++ "hello%20world".data ++ b := by
  refine ⟨rfl, rfl, rfl, searchBase engine, [], ?_⟩
  have h1 : (normalizeUrl engine "hello world").data =
      searchBase engine ++ encodeURIComponentL ("hello world".data) := rfl
  have h2 : encodeURIComponentL ("hello world".data) = "hello%20world".data := by decide
  rw [h1, h2]
  simp

/-- Claim C6: the per-session `did-navigate` handler leaves the tab's url
and the history log unchanged (and emits nothing) when the tab is flagged
as showing the internal placeholder and the target matches the `about:`
sentinel; in every other case it sets the url, appends a history entry
for the target, and emits exactly one tab-update notification. -/
theorem didNavigate_spec (store : Store) (tab : TabM) (hist : List HistoryEntry)
    (u : String) :
    (tab.isInternalPage = true → jsStartsWith u "about:" = true →
      didNavigate store tab hist u = (tab, hist, [])) ∧
    (¬(tab.isInternalPage = true ∧ jsStartsWith u "about:" = true) →
      didNavigate store tab hist u =
        ({ tab with url := u }, hist ++ [⟨u, tab.title, tab.favicon⟩],
          [.tabUpdated (tabPayload store { tab with url := u })])) := by
  constructor
  · intro h1 h2
    unfold didNavigate
    rw [h1, h2]
    rfl
  · intro h
    unfold didNavigate
    have hc : (!tab.isInternalPage || !jsStartsWith u "about:") = true := by
      cases hi : tab.isInternalPage <;> cases hs : jsStartsWith u "about:" <;>
        simp_all
    rw [hc]
    rfl

/-- Witness for C6: an internal-placeholder tab ignores an `about:` load,
a regular tab records a real navigation. -/
theorem didNavigate_witness :
    didNavigate demoStore tabA [] "about:blank" = (tabA, [], []) ∧
    didNavigate demoStore tabB [] "https://x.org/" =
      ({ tabB with url := "https://x.org/" },
        [⟨"https://x.org/", tabB.title, tabB.favicon⟩],
        [.tabUpdated (tabPayload demoStore { tabB with url := "https://x.org/" })]) :=
  ⟨(didNavigate_spec demoStore tabA [] "about:blank").1 (by decide) (by decide),
    (didNavigate_spec demoStore tabB [] "https://x.org/").2 (by decide)⟩

theorem jsReplaceFirst_http (rest : String) :
    jsReplaceFirst "http:" "https:" ("http://" ++ rest) = "https://" ++ rest := rfl

/-- Claim C7: the request interceptor redirects a plain-HTTP non-local
request to its `https://` form without consulting the content filter
(the decision is independent of the filter) whenever HTTPS upgrade is
enabled; otherwise, with filtering enabled and the filter capability
present, it returns exactly the filter's verdict; otherwise it allows
the request unmodified. -/
theorem onBeforeRequest_spec (h a : Bool) (b : Option (String → NetResponse))
    (f : String → NetResponse) (u : String) :
    (h = true → jsStartsWith u "http://" = true → isLocal u = false →
      (∃ rest : String, u = "http://" ++ rest ∧
        onBeforeRequest h a b u = .redirectTo ("https://" ++ rest)) ∧
      (∀ b' : Option (String → NetResponse),
        onBeforeRequest h a b' u = onBeforeRequest h a b u)) ∧
    (¬(h = true ∧ jsStartsWith u "http://" = true ∧ isLocal u = false) →
      a = true → onBeforeRequest h a (some f) u = f u) ∧
    (¬(h = true ∧ jsStartsWith u "http://" = true ∧ isLocal u = false) →
      a = false → onBeforeRequest h a b u = .allow) := by
  refine ⟨?_, ?_, ?_⟩
  · intro hh hs hl
    have hcond : (h && jsStartsWith u "http://" && !isLocal u) = true := by
      rw [hh, hs, hl]
      rfl
    have hval : ∀ b' : Option (String → NetResponse),
        onBeforeRequest h a b' u =
          .redirectTo (jsReplaceFirst "http:" "https:" u) := by
      intro b'
      unfold onBeforeRequest
      rw [if_pos hcond]
    constructor
    · obtain ⟨t, ht⟩ :=
        isPrefixOf_exists (show "http://".data.isPrefixOf u.data = true from hs)
      have hu : u = "http://" ++ (⟨t⟩ : String) := congrArg String.mk ht
      refine ⟨⟨t⟩, hu, ?_⟩
      rw [hval b, hu, jsReplaceFirst_http]
    · intro b'
      rw [hval b', hval b]
  · intro hn ha
    have hcond : ¬((h && jsStartsWith u "http://" && !isLocal u) = true) := by
      intro hc
      apply hn
      simp only [Bool.and_eq_true, Bool.not_eq_true'] at hc
      exact ⟨hc.1.1, hc.1.2, hc.2⟩
    unfold onBeforeRequest
    rw [if_neg hcond, ha]
  · intro hn ha
    have hcond : ¬((h && jsStartsWith u "http://" && !isLocal u) = true) := by
      intro hc
      apply hn
      simp only [Bool.and_eq_true, Bool.not_eq_true'] at hc
      exact ⟨hc.1.1, hc.1.2, hc.2⟩
    unfold onBeforeRequest
    rw [if_neg hcond, ha]

/-- Witness for C7: a plain-HTTP request is upgraded (independently of the
filter), a non-upgradable request falls to the enabled filter, and with
filtering off it is allowed. -/
theorem onBeforeRequest_spec_witness :
    ((∃ rest : String, ("http://example.org/x" : String) = "http://" ++ rest ∧
        onBeforeRequest true true (some demoBlocker) "http://example.org/x" =
          .redirectTo ("https://" ++ rest)) ∧
      (∀ b' : Option (String → NetResponse),
        onBeforeRequest true true b' "http://example.org/x" =
          onBeforeRequest true true (some demoBlocker) "http://example.org/x")) ∧
    onBeforeRequest false true (some demoBlocker) "http://example.org/x" =
      demoBlocker "http://example.org/x" ∧
    onBeforeRequest true false (some demoBlocker) "https://example.org/x" =
      .allow :=
  ⟨(onBeforeRequest_spec true true (some demoBlocker) demoBlocker
      "http://example.org/x").1 rfl (by decide) (by decide),
    (onBeforeRequest_spec false true (some demoBlocker) demoBlocker
      "http://example.org/x").2.1 (by simp) rfl,
    (onBeforeRequest_spec true false (some demoBlocker) demoBlocker
      "https://example.org/x").2.2 (by decide) rfl⟩

theorem lookupTab_set_self (st upd : AppState) (tid : String) (tab4 : TabM)
    (hmem : ∃ p ∈ st.tabs, p.1 = tid) (h : upd.tabs = setTab st.tabs tid tab4) :
    lookupTab upd tid = some tab4 := by
  unfold lookupTab
  rw [h, setTab_of_mem _ _ _ hmem, find?_overwrite _ _ _ hmem]
  rfl

theorem lookupTab_set_other (st upd : AppState) (tid tid' : String) (tab4 : TabM)
    (hne : tid' ≠ tid) (hmem : ∃ p ∈ st.tabs, p.1 = tid)
    (h : upd.tabs = setTab st.tabs tid tab4) :
    lookupTab upd tid' = lookupTab st tid' := by
  unfold lookupTab
  rw [h, setTab_of_mem _ _ _ hmem, find?_overwrite_other _ _ _ _ hne]

/-- Claim C8: for a registered tab, `update-tab-state` overwrites exactly
the fields present in the partial update (absent fields keep their
values), reports success, and leaves every other tab untouched; for an
unknown tab it is a no-op that reports failure as a result value. -/
theorem updateTabState_spec (st : AppState) (tid : String) (patch : TabPatch) :
    (lookupTab st tid = none → updateTabStateHandler st tid patch = (st, false)) ∧
    (∀ tab, lookupTab st tid = some tab →
      (updateTabStateHandler st tid patch).2 = true ∧
      lookupTab (updateTabStateHandler st tid patch).1 tid = some
        { tab with
          url := patch.url.getD tab.url
          title := patch.title.getD tab.title
          favicon := patch.favicon.getD tab.favicon
          isLoading := patch.isLoading.getD tab.isLoading } ∧
      (∀ tid', tid' ≠ tid →
        lookupTab (updateTabStateHandler st tid patch).1 tid' =
          lookupTab st tid')) := by
  constructor
  · intro h
    unfold updateTabStateHandler
    rw [h]
  · intro tab hlk
    have hmem : ∃ p ∈ st.tabs, p.1 = tid := ⟨(tid, tab), lookupTab_pair_mem hlk, rfl⟩
    refine ⟨?_, ?_, ?_⟩
    · unfold updateTabStateHandler
      rw [hlk]
    · obtain ⟨pu, pt, pf, pl⟩ := patch
      cases pu <;> cases pt <;> cases pf <;> cases pl <;>
        (unfold updateTabStateHandler
         rw [hlk]
         exact lookupTab_set_self st _ tid _ hmem rfl)
    · intro tid' hne
      unfold updateTabStateHandler
      rw [hlk]
      exact lookupTab_set_other st _ tid tid' _ hne hmem rfl

/-- Witness for C8: a partial update with url and loading flag set on a
concrete state overwrites exactly those fields and leaves the other tab
alone. -/
theorem updateTabState_spec_witness :
    (updateTabStateHandler demoState (mkTabId 2 5)
      ⟨some "https://new.example", none, none, some true⟩).2 = true ∧
    lookupTab (updateTabStateHandler demoState (mkTabId 2 5)
      ⟨some "https://new.example", none, none, some true⟩).1 (mkTabId 2 5) = some
      { tabB with
        url := (some "https://new.example").getD tabB.url
        title := (none : Option String).getD tabB.title
        favicon := (none : Option String).getD tabB.favicon
        isLoading := (some true).getD tabB.isLoading } ∧
    lookupTab (updateTabStateHandler demoState (mkTabId 2 5)
      ⟨some "https://new.example", none, none, some true⟩).1 (mkTabId 1 0) =
      lookupTab demoState (mkTabId 1 0) :=
  ⟨((updateTabState_spec demoState (mkTabId 2 5)
      ⟨some "https://new.example", none, none, some true⟩).2 tabB (by decide)).1,
    ((updateTabState_spec demoState (mkTabId 2 5)
      ⟨some "https://new.example", none, none, some true⟩).2 tabB (by decide)).2.1,
    ((updateTabState_spec demoState (mkTabId 2 5)
      ⟨some "https://new.example", none, none, some true⟩).2 tabB (by decide)).2.2
      (mkTabId 1 0) (by decide)⟩

/-- Claim C9: along any run of create/close events from process start, the
ids handed out by `createTab` (the ghost `issued` log records every id it
returns, including the default tab `closeTab` creates when the last tab
closes) are pairwise distinct — two distinct `createTab` calls return
distinct ids, and a closed tab's id is never reassigned to a
later-created tab. -/
theorem tabIds_never_reused (evs : List TabEvent) :
    (runEvents evs).issued.Nodup :=
  (issuedInv_foldl evs initState issuedInv_init).2

/-- Claim C10: `normalizeUrl` is idempotent for every input string and
every fixed default-search-engine setting — each of its outputs (a
passed-through already-schemed input, an `https://`-prefixed domain or
localhost form, or a search-engine query URL) is classified as an
already-schemed URL on re-normalization and returned unchanged. -/
theorem normalizeUrl_idempotent (engine s : String) :
    normalizeUrl engine (normalizeUrl engine s) = normalizeUrl engine s :=
  congrArg String.mk (normalizeUrlL_idem engine s.data)

/-- Witness for C5 at a concrete engine value. -/
theorem normalizeUrl_examples_witness :
    normalizeUrl "google" "example.com" = "https://example.com" ∧
    normalizeUrl "google" "http://example.com" = "http://example.com" ∧
    normalizeUrl "google" "localhost:3000" = "https://localhost:3000" ∧
    ∃ a b, (normalizeUrl "google" "hello world").data =
      a ++ "hello%20world".data ++ b :=
  normalizeUrl_examples "google"

/-- Witness for C9 on a concrete run that creates three tabs and closes
one in between. -/
theorem tabIds_never_reused_witness :
    (runEvents [TabEvent.create "https://a.com" 3, TabEvent.create "https://b.com" 3,
      TabEvent.close (mkTabId 1 3) 4,
      TabEvent.create "https://c.com" 5]).issued.Nodup :=
  tabIds_never_reused _

/-- Witness for C10 at a concrete engine and input. -/
theorem normalizeUrl_idempotent_witness :
    normalizeUrl "google" (normalizeUrl "google" "hello world") =
      normalizeUrl "google" "hello world" :=
  normalizeUrl_idempotent "google" "hello world"

example : normalizeUrl "google" "example.com" = "https://example.com" := by decide
example : normalizeUrl "google" "http://example.com" = "http://example.com" := by decide
example : normalizeUrl "google" "localhost:3000" = "https://localhost:3000" := by decide
example : normalizeUrl "google" "hello world" =
    "https://www.google.com/search?q=hello%20world" := by decide
example : normalizeUrl "google" "app://settings" =
    "https://www.google.com/search?q=app%3A%2F%2Fsettings" := by decide
example : normalizeUrl "google" "poseidon://settings" = "poseidon://settings" := by decide
example : normalizeUrl "duckduckgo" "hello world" =
    "https://duckduckgo.com/?q=hello%20world" := by decide
example : normalizeUrl "google" "  example.com  " = "https://example.com" := by decide
example : normalizeUrl "google" "about:blank" = "about:blank" := by decide

end Poseidon

